import Mathlib

/-!
Shallow embedding of the backlog-mcp-server core pipeline
(pagination normalization, error classification, tool input schemas,
response mappers and the tool execution sequences) together with
theorems settling the specification claims.

JavaScript numeric values are modelled as an inductive `JsNum`
(NaN / ±Infinity / finite rational); JSON field occupancy is modelled
explicitly (absent vs present-undefined vs present value) where the code
distinguishes those cases.
-/

namespace BacklogMcp

/-- ASCII whitespace as recognised by JavaScript `\s` and `String.prototype.trim`
(the model covers the ASCII range actually occurring in this codebase). -/
def isJsWs (c : Char) : Bool :=
  c = ' ' || c = '\t' || c = '\n' || c = '\r' || c = '\x0b' || c = '\x0c'

/-- JavaScript `String.prototype.trim` over the modelled whitespace set. -/
def jsTrim (s : String) : String :=
  ⟨((s.data.dropWhile (fun c => isJsWs c)).reverse.dropWhile
      (fun c => isJsWs c)).reverse⟩

/-- A JavaScript `number` value: NaN, ±Infinity, or a finite value
(IEEE doubles are modelled as exact rationals). -/
inductive JsNum where
  | nan
  | posInf
  | negInf
  | finite (q : ℚ)
deriving DecidableEq, Repr

/-- `Number.isFinite`. -/
def JsNum.isFinite : JsNum → Bool
  | .finite _ => true
  | _ => false

/-- An optional, untrusted pagination field: absent (`undefined`),
present but not a number, or a number. -/
inductive PagField where
  | absent
  | nonNumber
  | num (x : JsNum)
deriving DecidableEq, Repr

/-- The loosely-typed `PaginationOptions` record (`src/utils/pagination.ts`). -/
structure PaginationOptions where
  offset : PagField
  limit : PagField
deriving DecidableEq, Repr

/-- The sanitized pagination record produced by `normalizePagination`:
each surviving field is an integer. -/
structure NormalizedPagination where
  offset : Option ℤ
  limit : Option ℤ
deriving DecidableEq, Repr

/-- `normalizePagination` from `src/utils/pagination.ts`:
absent input object stays absent; a finite numeric `offset` becomes
`Math.max(0, Math.floor(offset))`, a finite numeric `limit` becomes
`Math.max(1, Math.floor(limit))`; every other field is omitted. -/
def normalizePagination : Option PaginationOptions → Option NormalizedPagination
  | none => none
  | some o =>
    some
      { offset :=
          match o.offset with
          | .num (.finite q) => some (max 0 ⌊q⌋)
          | _ => none
        limit :=
          match o.limit with
          | .num (.finite q) => some (max 1 ⌊q⌋)
          | _ => none }

/-- `buildPaginationParams` from `src/utils/pagination.ts`: normalizes,
then emits the surviving fields as wire query parameters in insertion
order (`offset` under `offset`, `limit` under `count`); an empty
parameter object is collapsed to absence. -/
def buildPaginationParams (o : Option PaginationOptions) :
    Option (List (String × ℤ)) :=
  match normalizePagination o with
  | none => none
  | some n =>
    let params :=
      (match n.offset with
        | some v => [("offset", v)]
        | none => []) ++
      (match n.limit with
        | some v => [("count", v)]
        | none => [])
    if params.isEmpty then none else some params

/-- Integer-valued `max` commutes with the floor taken inside the source's
`Math.max(0, Math.floor(q))`, matching the spec's `floor(max(0, q))`. -/
theorem max_floor_eq_floor_max (a : ℤ) (q : ℚ) :
    max a ⌊q⌋ = ⌊max (a : ℚ) q⌋ := by
  rcases le_total (a : ℚ) q with h | h
  · rw [max_eq_right h, max_eq_right]
    exact Int.le_floor.mpr h
  · rw [max_eq_left h, max_eq_left, Int.floor_intCast]
    calc ⌊q⌋ ≤ ⌊(a : ℚ)⌋ := Int.floor_mono h
    _ = a := Int.floor_intCast a

/-! ### Error model (`src/utils/errors.ts`, `src/backlogClient.ts`) -/

/-- A value thrown into the classifier `handleError`. `mcpError` is an
already-classified protocol error; `rateLimitToken` is the bare string
sentinel `'RATE_LIMIT'` thrown by the client on HTTP 429; `zodError` is an
input-validation failure; `backlogError` is the client's typed error with
an optionally attached HTTP status and optional detail payload;
`genericError` is a plain `Error`; `nonError` is any other thrown value. -/
inductive ClassifierInput where
  | mcpError (code : ℤ) (message : String)
  | rateLimitToken
  | zodError (issues : List String)
  | backlogError (message : String) (status : Option ℕ) (details : Option String)
  | genericError (message : String)
  | nonError
deriving DecidableEq, Repr

/-- A `BacklogError` after `normalizeError` (the `cause` chain, irrelevant to
the claims, is not modelled). -/
structure NormalizedBacklogError where
  message : String
  status : Option ℕ
  details : Option String
deriving DecidableEq, Repr

/-- `normalizeError` from `src/utils/errors.ts`: a `BacklogError` passes
through; any other `Error` (including `McpError`/`ZodError`, which extend
`Error`) is wrapped keeping its message; a non-`Error` value falls back to
the supplied fallback message or the fixed unknown-error message. -/
def normalizeError (e : ClassifierInput) (fallback : Option String) :
    NormalizedBacklogError :=
  match e with
  | .backlogError m st d => ⟨m, st, d⟩
  | .genericError m => ⟨m, none, none⟩
  | .mcpError _ m => ⟨m, none, none⟩
  | .zodError _ => ⟨"", none, none⟩
  | .rateLimitToken | .nonError =>
    match fallback with
    | some fm => ⟨fm, none, some "original value"⟩
    | none => ⟨"Unknown Backlog client error", none, some "original value"⟩

/-- Lower-case an ASCII letter, mirroring the case-insensitivity of the
`/status\s+(\d{3})/i` regular expression. -/
def lowerChar (c : Char) : Char :=
  if 'A' ≤ c && c ≤ 'Z' then Char.ofNat (c.toNat + 32) else c

/-- Try to match `status` case-insensitively, then one-or-more whitespace,
then three digits, at the head of the character list; on success return the
numeric value of the three captured digits. -/
def matchStatusAt (cs : List Char) : Option ℕ :=
  match cs with
  | c1 :: c2 :: c3 :: c4 :: c5 :: c6 :: rest =>
    if (([c1, c2, c3, c4, c5, c6].map lowerChar) = "status".data) then
      let afterWs := rest.dropWhile (fun c => isJsWs c)
      if rest.length > afterWs.length then
        match afterWs with
        | d1 :: d2 :: d3 :: _ =>
          if d1.isDigit && d2.isDigit && d3.isDigit then
            some ((d1.toNat - 48) * 100 + (d2.toNat - 48) * 10 + (d3.toNat - 48))
          else none
        | _ => none
      else none
    else none
  | _ => none

/-- Leftmost match of `/status\s+(\d{3})/i` over a character list. -/
def scanStatus : List Char → Option ℕ
  | [] => none
  | c :: rest =>
    match matchStatusAt (c :: rest) with
    | some n => some n
    | none => scanStatus rest

/-- Best-effort recovery of an HTTP status from an error message:
the leftmost `/status\s+(\d{3})/i` match (`src/utils/errors.ts`). -/
def recoverStatus (s : String) : Option ℕ :=
  scanStatus s.data

/-- Custom MCP protocol error codes defined in `src/utils/errors.ts`. -/
def UNAUTHENTICATED : ℤ := -32002

/-- Custom MCP protocol error code for authorization failures. -/
def PERMISSION_DENIED : ℤ := -32003

/-- Custom MCP protocol error code for unavailability / rate limiting. -/
def UNAVAILABLE : ℤ := -32004

/-- `ErrorCode.InvalidParams` from the MCP SDK (JSON-RPC standard code). -/
def INVALID_PARAMS : ℤ := -32602

/-- `ErrorCode.InternalError` from the MCP SDK (JSON-RPC standard code). -/
def INTERNAL_ERROR : ℤ := -32603

/-- `buildErrorMessage`: prefix the message with the originating tool name
when one is supplied. -/
def buildErrorMessage (message : String) (toolName : Option String) : String :=
  match toolName with
  | some t => "[" ++ t ++ "] " ++ message
  | none => message

/-- The `McpError` ultimately thrown by `handleError`: protocol code,
prefixed message, and the structured data bag (attached/inferred HTTP
status, upstream detail payload, field-level validation issues). -/
structure McpThrown where
  code : ℤ
  message : String
  status : Option ℕ
  details : Option String
  issues : Option (List String)
deriving DecidableEq, Repr

/-- `handleError` from `src/utils/errors.ts`. The source function has
return type `never` (it always throws); the model returns the thrown
`McpError`. Branch order follows the source: already-classified pass-through,
rate-limit sentinel, validation failure, then status-directed classification
of the normalized error, with the status recovered from the message text
when not attached. -/
def handleError (e : ClassifierInput) (toolName : Option String)
    (fallbackMessage : Option String) : McpThrown :=
  match e with
  | .mcpError c m => ⟨c, m, none, none, none⟩
  | .rateLimitToken =>
    ⟨UNAVAILABLE, buildErrorMessage "Backlog API rate limit exceeded." toolName,
      some 429, none, none⟩
  | .zodError issues =>
    ⟨INVALID_PARAMS,
      buildErrorMessage "Invalid parameters provided for Backlog tool." toolName,
      none, none, some issues⟩
  | other =>
    let normalized := normalizeError other fallbackMessage
    let status :=
      match normalized.status with
      | some s => some s
      | none => recoverStatus normalized.message
    match status with
    | some s =>
      if s = 401 then
        ⟨UNAUTHENTICATED,
          buildErrorMessage "Backlog authentication failed." toolName,
          some s, normalized.details, none⟩
      else if s = 403 then
        ⟨PERMISSION_DENIED,
          buildErrorMessage "Backlog permission denied." toolName,
          some s, normalized.details, none⟩
      else if s = 404 then
        ⟨INVALID_PARAMS,
          buildErrorMessage "Requested Backlog resource was not found." toolName,
          some s, normalized.details, none⟩
      else if s = 429 then
        ⟨UNAVAILABLE,
          buildErrorMessage "Backlog API rate limit exceeded." toolName,
          some s, normalized.details, none⟩
      else if 400 ≤ s ∧ s < 500 then
        ⟨INVALID_PARAMS, buildErrorMessage normalized.message toolName,
          some s, normalized.details, none⟩
      else if 500 ≤ s then
        ⟨INTERNAL_ERROR,
          buildErrorMessage "Backlog service encountered an internal error." toolName,
          some s, normalized.details, none⟩
      else
        ⟨INTERNAL_ERROR, buildErrorMessage normalized.message toolName,
          some s, normalized.details, none⟩
    | none =>
      ⟨INTERNAL_ERROR, buildErrorMessage normalized.message toolName,
        none, normalized.details, none⟩

/-- The protocol error code as a function of the recovered/attached status
alone (the status-directed part of `handleError`). -/
def classOfStatus : Option ℕ → ℤ
  | some s =>
    if s = 401 then UNAUTHENTICATED
    else if s = 403 then PERMISSION_DENIED
    else if s = 404 then INVALID_PARAMS
    else if s = 429 then UNAVAILABLE
    else if 400 ≤ s ∧ s < 500 then INVALID_PARAMS
    else INTERNAL_ERROR
  | none => INTERNAL_ERROR

/-- The message embedded in the generic request-failure error thrown by
`BacklogClient.request` for a non-2xx, non-429 response. -/
def requestFailedMessage (status : ℕ) : String :=
  "Backlog request failed with status " ++ toString status

/-- Outcome of `BacklogClient.request`'s status handling. -/
inductive ClientOutcome where
  | thrown (e : ClassifierInput)
  | noContent
  | parseBody
deriving DecidableEq, Repr

/-- The status-directed control flow of `BacklogClient.request`
(`src/backlogClient.ts`): 429 throws the bare rate-limit sentinel; any
other non-2xx throws a generic `Error` embedding the numeric status in its
message; 204/205 yield no content; otherwise the body is JSON-parsed. -/
def responseStatusOutcome (status : ℕ) : ClientOutcome :=
  if status = 429 then .thrown .rateLimitToken
  else if ¬(200 ≤ status ∧ status ≤ 299) then
    .thrown (.genericError (requestFailedMessage status))
  else if status = 204 ∨ status = 205 then .noContent
  else .parseBody

/-! ### Update-payload schemas (zod `.partial().refine(...)`) -/

/-- Occupancy of a JSON object field: absent from the object, present with
the value `undefined`, or present with a value. The zod `refine` guard on
the update schemas inspects `Object.values`, which distinguishes
present-`undefined` entries from absent keys. -/
inductive Field (α : Type) where
  | absent
  | undef
  | val (v : α)
deriving DecidableEq, Repr

/-- Whether the field contributes a non-`undefined` entry to
`Object.values` (`absent` contributes nothing, `undef` contributes
`undefined`). -/
def Field.definedVals : Field α → List Bool
  | .absent => []
  | .undef => [false]
  | .val _ => [true]

/-- The refine guard shared by the update schemas:
`Object.values(data).some((value) => value !== undefined)`. -/
def someDefined (vals : List Bool) : Bool :=
  vals.any id

/-- Raw argument object for `issueUpdatePayloadSchema`
(`issuePayloadSchema.partial()`, passthrough): an optional trimmed
non-empty `summary`, an optional `description`, plus passthrough entries
(modelled by their definedness). -/
structure IssueUpdateRaw where
  summary : Field String
  description : Field String
  extra : List (String × Bool)
deriving DecidableEq, Repr

/-- The parsed issue-update payload (summary trimmed by `z.string().trim()`). -/
structure IssueUpdateParsed where
  summary : Option String
  description : Option String
deriving DecidableEq, Repr

/-- `issueUpdatePayloadSchema.parse` (`src/tools/issues.ts`): each present
field is validated (`summary` must be non-empty after trimming), then the
refine guard rejects a payload in which every value is `undefined`. -/
def parseIssueUpdate (p : IssueUpdateRaw) : Except Unit IssueUpdateParsed :=
  match p.summary with
  | .val s =>
    if jsTrim s = "" then .error ()
    else refineStep (some (jsTrim s))
  | _ => refineStep none
where
  refineStep (parsedSummary : Option String) : Except Unit IssueUpdateParsed :=
    let desc := match p.description with
      | .val d => some d
      | _ => none
    if someDefined (p.summary.definedVals ++ p.description.definedVals ++
        p.extra.map (·.2)) then
      .ok ⟨parsedSummary, desc⟩
    else .error ()

/-- Raw argument object for `commentUpdatePayloadSchema`
(`commentPayloadSchema.partial()`, passthrough, `src/tools/comments.ts`). -/
structure CommentUpdateRaw where
  content : Field String
  notifiedUserIds : Field (List ℤ)
  extra : List (String × Bool)
deriving DecidableEq, Repr

/-- The parsed comment-update payload. -/
structure CommentUpdateParsed where
  content : Option String
  notifiedUserIds : Option (List ℤ)
deriving DecidableEq, Repr

/-- `commentUpdatePayloadSchema.parse`: a present `content` must be
non-empty after trimming, present `notifiedUserIds` must all be positive
integers, then the refine guard rejects an all-`undefined` payload. -/
def parseCommentUpdate (p : CommentUpdateRaw) : Except Unit CommentUpdateParsed :=
  match p.content with
  | .val s =>
    if jsTrim s = "" then .error ()
    else idsStep (some (jsTrim s))
  | _ => idsStep none
where
  idsStep (parsedContent : Option String) : Except Unit CommentUpdateParsed :=
    match p.notifiedUserIds with
    | .val ids =>
      if ids.all (fun i => 0 < i) then refineStep parsedContent (some ids)
      else .error ()
    | _ => refineStep parsedContent none
  refineStep (parsedContent : Option String) (ids : Option (List ℤ)) :
      Except Unit CommentUpdateParsed :=
    if someDefined (p.content.definedVals ++ p.notifiedUserIds.definedVals ++
        p.extra.map (·.2)) then
      .ok ⟨parsedContent, ids⟩
    else .error ()

/-- Raw argument object for `wikiUpdatePayloadSchema`
(`src/tools/wiki.ts`): optional trimmed non-empty `name`, optional
`content`, optional boolean `mailNotify`, passthrough entries. -/
structure WikiUpdateRaw where
  name : Field String
  content : Field String
  mailNotify : Field Bool
  extra : List (String × Bool)
deriving DecidableEq, Repr

/-- The parsed wiki-update payload. -/
structure WikiUpdateParsed where
  name : Option String
  content : Option String
  mailNotify : Option Bool
deriving DecidableEq, Repr

/-- `wikiUpdatePayloadSchema.parse`: a present `name` must be non-empty
after trimming; then the refine guard rejects an all-`undefined` payload. -/
def parseWikiUpdate (p : WikiUpdateRaw) : Except Unit WikiUpdateParsed :=
  match p.name with
  | .val s =>
    if jsTrim s = "" then .error ()
    else refineStep (some (jsTrim s))
  | _ => refineStep none
where
  refineStep (parsedName : Option String) : Except Unit WikiUpdateParsed :=
    let c := match p.content with
      | .val v => some v
      | _ => none
    let mn := match p.mailNotify with
      | .val b => some b
      | _ => none
    if someDefined (p.name.definedVals ++ p.content.definedVals ++
        p.mailNotify.definedVals ++ p.extra.map (·.2)) then
      .ok ⟨parsedName, c, mn⟩
    else .error ()

/-! ### Validated raw entities and response mappers -/

/-- A `nullable().optional()` (or `.nullish()`) field of a validated raw
entity: the key may be absent, explicitly `null`, or carry a value. -/
inductive Nullish (α : Type) where
  | absent
  | null
  | val (v : α)
deriving DecidableEq, Repr

/-- `x ?? null` on a nullish field: `null`/absent collapse to `null`
(modelled as `none`), a value survives. -/
def Nullish.coalesce : Nullish α → Option α
  | .val v => some v
  | _ => none

/-- Validated `backlogUserSchema` shape: every field optional. -/
structure BacklogUser where
  id : Option ℤ
  userId : Option String
  name : Option String
deriving DecidableEq, Repr

/-- Validated `backlogCommentSchema` shape (`src/tools/comments.ts`). -/
structure BacklogComment where
  id : ℤ
  content : Nullish String
  createdUser : Nullish BacklogUser
  created : Nullish String
  updated : Nullish String
deriving DecidableEq, Repr

/-- The public author shape: nullable id and name. -/
structure AuthorInfo where
  id : Option ℤ
  name : Option String
deriving DecidableEq, Repr

/-- The public comment shape. In the model every field is structurally
present (`Option` encodes `null`, never `undefined`), so the mapper is
total by construction — it can neither throw nor omit a field. -/
structure CommentInfo where
  id : ℤ
  content : Option String
  author : Option AuthorInfo
  created : Option String
  updated : Option String
deriving DecidableEq, Repr

/-- `toCommentInfo` (`src/tools/comments.ts`): nullish scalars collapse via
`?? null`; a present `createdUser` object (always truthy) is projected to
its `id`/`name`, an absent or `null` one becomes `null`. -/
def toCommentInfo (c : BacklogComment) : CommentInfo :=
  { id := c.id
    content := c.content.coalesce
    author :=
      match c.createdUser with
      | .val u => some ⟨u.id, u.name⟩
      | _ => none
    created := c.created.coalesce
    updated := c.updated.coalesce }

/-- Validated `backlogWikiTagSchema` shape. -/
structure BacklogWikiTag where
  id : Option ℤ
  name : Option String
deriving DecidableEq, Repr

/-- Validated `backlogWikiSchema` shape (`src/tools/wiki.ts`). -/
structure BacklogWiki where
  id : ℤ
  projectId : Option ℤ
  name : String
  content : Nullish String
  createdUser : Nullish BacklogUser
  updatedUser : Nullish BacklogUser
  created : Nullish String
  updated : Nullish String
  tags : Option (List BacklogWikiTag)
deriving DecidableEq, Repr

/-- `toTagNames`: default absent tag lists to `[]`, trim each tag name, and
keep only those non-empty after trimming (the rest of the tag object is
discarded). -/
def toTagNames (w : BacklogWiki) : List String :=
  (w.tags.getD []).filterMap fun t =>
    match t.name with
    | some n => if jsTrim n = "" then none else some (jsTrim n)
    | none => none

/-- `toUserInfo` (`src/tools/wiki.ts`): a present user collapses to its
numeric id (else `null`) and name (else `null`); `null`/absent becomes
`null`. -/
def toUserInfo : Nullish BacklogUser → Option AuthorInfo
  | .val u => some ⟨u.id, u.name⟩
  | _ => none

/-- The public wiki-details shape. -/
structure WikiDetails where
  id : ℤ
  projectId : Option ℤ
  name : String
  content : Option String
  created : Option String
  updated : Option String
  createdBy : Option AuthorInfo
  updatedBy : Option AuthorInfo
  tags : List String
deriving DecidableEq, Repr

/-- `toWikiDetails` (`src/tools/wiki.ts`). -/
def toWikiDetails (w : BacklogWiki) : WikiDetails :=
  { id := w.id
    projectId := w.projectId
    name := w.name
    content := w.content.coalesce
    created := w.created.coalesce
    updated := w.updated.coalesce
    createdBy := toUserInfo w.createdUser
    updatedBy := toUserInfo w.updatedUser
    tags := toTagNames w }

/-- The public wiki-summary shape returned by `searchWiki`. -/
structure WikiSummary where
  id : ℤ
  projectId : Option ℤ
  name : String
  updated : Option String
  tags : List String
deriving DecidableEq, Repr

/-- `toWikiSummary` (`src/tools/wiki.ts`). -/
def toWikiSummary (w : BacklogWiki) : WikiSummary :=
  { id := w.id
    projectId := w.projectId
    name := w.name
    updated := w.updated.coalesce
    tags := toTagNames w }

/-! ### URL component encoding (`encodeURIComponent`) -/

/-- Characters left intact by `encodeURIComponent`. -/
def isUnreservedURI (c : Char) : Bool :=
  c.isAlphanum || c = '-' || c = '_' || c = '.' || c = '!' || c = '~' ||
    c = '*' || c = Char.ofNat 39 || c = '(' || c = ')'

/-- UTF-8 byte sequence of a character. -/
def utf8Bytes (c : Char) : List ℕ :=
  let n := c.toNat
  if n < 0x80 then [n]
  else if n < 0x800 then [0xC0 + n / 64, 0x80 + n % 64]
  else if n < 0x10000 then
    [0xE0 + n / 4096, 0x80 + (n / 64) % 64, 0x80 + n % 64]
  else
    [0xF0 + n / 262144, 0x80 + (n / 4096) % 64, 0x80 + (n / 64) % 64,
      0x80 + n % 64]

/-- Upper-case hexadecimal digit. -/
def hexDigitChar (n : ℕ) : Char :=
  if n < 10 then Char.ofNat (48 + n) else Char.ofNat (55 + n)

/-- Percent-encoding of one byte. -/
def percentByte (b : ℕ) : List Char :=
  ['%', hexDigitChar (b / 16), hexDigitChar (b % 16)]

/-- `encodeURIComponent`: unreserved characters pass through, everything
else is percent-encoded byte-wise in UTF-8. -/
def encodeURIComponentM (s : String) : String :=
  ⟨s.data.flatMap fun c =>
    if isUnreservedURI c then [c] else (utf8Bytes c).flatMap percentByte⟩

/-! ### Tool execution sequences -/

/-- An observable step of a tool's `execute`: a schema (zod) validation
failure, a plain thrown `Error`, or an invocation of the request executor. -/
inductive Step where
  | validationError
  | genericThrow
  | networkCall (method : String) (path : String)
deriving DecidableEq, Repr

/-- `q` is an integral rational (`z.number().int()` accepts it). -/
def isIntQ (q : ℚ) : Prop := q.den = 1

instance (q : ℚ) : Decidable (isIntQ q) := by unfold isIntQ; infer_instance

/-- Parse an optional non-negative-integer field
(`z.number().int().min(0).optional()`). Non-numeric JSON values are
rejected by zod just like non-integral ones; the model covers the numeric
input space. -/
def parseOptNonneg : Option ℚ → Except Unit (Option ℤ)
  | none => .ok none
  | some q => if isIntQ q ∧ 0 ≤ q then .ok (some q.num) else .error ()

/-- Parse an optional positive-integer field
(`z.number().int().positive().optional()`). -/
def parseOptPos : Option ℚ → Except Unit (Option ℤ)
  | none => .ok none
  | some q => if isIntQ q ∧ 0 < q then .ok (some q.num) else .error ()

/-- Parse a required positive-integer field. -/
def parseReqPos : Option ℚ → Except Unit ℤ
  | none => .error ()
  | some q => if isIntQ q ∧ 0 < q then .ok q.num else .error ()

/-- Parse a required trimmed non-empty string field
(`z.string().trim().min(1)`); the parsed value is the trimmed string. -/
def parseReqTrimmed : Option String → Except Unit String
  | none => .error ()
  | some s => if jsTrim s = "" then .error () else .ok (jsTrim s)

/-- Embed a validated integer pagination field back into the loosely-typed
shape consumed by `normalizePagination`. -/
def pagFieldOfOpt : Option ℤ → PagField
  | none => .absent
  | some v => .num (.finite (v : ℚ))

/-- The next-offset computation shared verbatim by every list tool:
`typeof effectiveLimit === 'number' && itemsReturned === effectiveLimit ?
effectiveOffset + effectiveLimit : null`. -/
def nextOffsetCalc (effLimit : Option ℤ) (effOffset : ℤ) (itemsReturned : ℕ) :
    Option ℤ :=
  match effLimit with
  | some l => if (itemsReturned : ℤ) = l then some (effOffset + l) else none
  | none => none

/-- Raw `listComments` argument object (fields absent or numeric). -/
structure ListCommentsRaw where
  issueId : Option ℚ
  offset : Option ℚ
  limit : Option ℚ
deriving DecidableEq, Repr

/-- Parsed `listComments` input. -/
structure ListCommentsParsed where
  issueId : ℤ
  offset : Option ℤ
  limit : Option ℤ
deriving DecidableEq, Repr

/-- `listCommentsInputSchema.parse`: positive-integer `issueId`,
optional non-negative-integer `offset`, optional positive-integer `limit`. -/
def parseListCommentsInput (p : ListCommentsRaw) :
    Except Unit ListCommentsParsed :=
  match parseReqPos p.issueId with
  | .error e => .error e
  | .ok issueId =>
    match parseOptNonneg p.offset with
    | .error e => .error e
    | .ok off =>
      match parseOptPos p.limit with
      | .error e => .error e
      | .ok lim => .ok ⟨issueId, off, lim⟩

/-- Result shape of the `listComments` tool. -/
structure ListCommentsResult where
  comments : List CommentInfo
  nextOffset : Option ℤ
deriving DecidableEq, Repr

/-- `createListCommentsTool(...).execute` (`src/tools/comments.ts`),
with the upstream response supplied as an already-validated comment list:
validate input, normalize pagination, call the executor, map the comments,
and attach the next offset
(`effectiveLimit` present and `comments.length === effectiveLimit`
⟹ `effectiveOffset + effectiveLimit`, else `null`). -/
def listCommentsRun (p : ListCommentsRaw) (upstream : List BacklogComment) :
    List Step × Except Unit ListCommentsResult :=
  match parseListCommentsInput p with
  | .error e => ([.validationError], .error e)
  | .ok parsed =>
    let np := normalizePagination
      (some ⟨pagFieldOfOpt parsed.offset, pagFieldOfOpt parsed.limit⟩)
    let effOffset : ℤ := (np.bind (·.offset)).getD 0
    let effLimit : Option ℤ := np.bind (·.limit)
    let nextOffset : Option ℤ := nextOffsetCalc effLimit effOffset upstream.length
    ([.networkCall "GET" ("/issues/" ++ toString parsed.issueId ++ "/comments")],
      .ok ⟨upstream.map toCommentInfo, nextOffset⟩)

/-- Raw `searchWiki` argument object: `projectKeyOrId` is a string-or-number
union, `keyword` an optional string, pagination numeric. -/
structure SearchWikiRaw where
  projectKeyOrId : Option (String ⊕ ℚ)
  keyword : Option String
  offset : Option ℚ
  limit : Option ℚ
deriving DecidableEq, Repr

/-- Parsed `searchWiki` input. -/
structure SearchWikiParsed where
  projectKeyOrId : String ⊕ ℤ
  keyword : Option String
  offset : Option ℤ
  limit : Option ℤ
deriving DecidableEq, Repr

/-- `searchWikiInputSchema.parse` (`src/tools/wiki.ts`): the
string-or-number union for `projectKeyOrId`. -/
def parseProjectKeyOrId : Option (String ⊕ ℚ) → Except Unit (String ⊕ ℤ)
  | none => .error ()
  | some (.inl s) =>
    if jsTrim s = "" then .error () else .ok (Sum.inl (jsTrim s))
  | some (.inr q) =>
    if isIntQ q ∧ 0 < q then .ok (Sum.inr q.num) else .error ()

/-- Parse the optional trimmed non-empty `keyword` field. -/
def parseOptKeyword : Option String → Except Unit (Option String)
  | none => .ok none
  | some s => if jsTrim s = "" then .error () else .ok (some (jsTrim s))

/-- `searchWikiInputSchema.parse` (`src/tools/wiki.ts`). -/
def parseSearchWikiInput (p : SearchWikiRaw) : Except Unit SearchWikiParsed :=
  match parseProjectKeyOrId p.projectKeyOrId with
  | .error e => .error e
  | .ok pk =>
    match parseOptKeyword p.keyword with
    | .error e => .error e
    | .ok kw =>
      match parseOptNonneg p.offset with
      | .error e => .error e
      | .ok off =>
        match parseOptPos p.limit with
        | .error e => .error e
        | .ok lim => .ok ⟨pk, kw, off, lim⟩

/-- JavaScript `String(x)` on the parsed string-or-number key. -/
def keyToString : String ⊕ ℤ → String
  | .inl s => s
  | .inr n => toString n

/-- Result shape of the `searchWiki` tool. -/
structure SearchWikiResult where
  wikis : List WikiSummary
  nextOffset : Option ℤ
deriving DecidableEq, Repr

/-- `createSearchWikiTool(...).execute` (`src/tools/wiki.ts`), with the
upstream response supplied as an already-validated wiki list. -/
def searchWikiRun (p : SearchWikiRaw) (upstream : List BacklogWiki) :
    List Step × Except Unit SearchWikiResult :=
  match parseSearchWikiInput p with
  | .error e => ([.validationError], .error e)
  | .ok parsed =>
    let np := normalizePagination
      (some ⟨pagFieldOfOpt parsed.offset, pagFieldOfOpt parsed.limit⟩)
    let effOffset : ℤ := (np.bind (·.offset)).getD 0
    let effLimit : Option ℤ := np.bind (·.limit)
    let nextOffset : Option ℤ := nextOffsetCalc effLimit effOffset upstream.length
    ([.networkCall "GET"
        ("/projects/" ++ encodeURIComponentM (keyToString parsed.projectKeyOrId)
          ++ "/wikis")],
      .ok ⟨upstream.map toWikiSummary, nextOffset⟩)

/-- Validated `backlogProjectSchema` shape (`src/tools/activities.ts`). -/
structure BacklogProject where
  id : Option ℤ
  projectKey : Option String
  name : Option String
deriving DecidableEq, Repr

/-- The free-form `content` payload of an activity
(`z.unknown().optional()`): absent, a non-object value, or an object
modelled as a string-to-string entry list. -/
inductive ActivityContent where
  | absent
  | nonObject
  | obj (entries : List (String × String))
deriving DecidableEq, Repr

/-- Validated `backlogActivitySchema` shape. -/
structure BacklogActivity where
  id : ℤ
  type : Option ℤ
  project : Nullish BacklogProject
  content : ActivityContent
  createdUser : Nullish BacklogUser
  created : Nullish String
deriving DecidableEq, Repr

/-- Public project shape on an activity. -/
structure ProjectInfo where
  id : Option ℤ
  key : Option String
  name : Option String
deriving DecidableEq, Repr

/-- `toProjectInfo` (`src/tools/activities.ts`). -/
def toProjectInfo : Nullish BacklogProject → Option ProjectInfo
  | .val p => some ⟨p.id, p.projectKey, p.name⟩
  | _ => none

/-- `toDetails`: a non-object (or absent) content collapses to the empty
map, an object is copied. -/
def toDetails : ActivityContent → List (String × String)
  | .obj es => es
  | _ => []

/-- Public activity shape. -/
structure ActivityInfo where
  id : ℤ
  type : Option ℤ
  project : Option ProjectInfo
  created : Option String
  createdBy : Option AuthorInfo
  details : List (String × String)
deriving DecidableEq, Repr

/-- `toActivityInfo` (`src/tools/activities.ts`). -/
def toActivityInfo (a : BacklogActivity) : ActivityInfo :=
  { id := a.id
    type := a.type
    project := toProjectInfo a.project
    created := a.created.coalesce
    createdBy := toUserInfo a.createdUser
    details := toDetails a.content }

/-- Raw `activities` argument object. -/
structure ActivitiesRaw where
  projectKey : Option String
  offset : Option ℚ
  limit : Option ℚ
deriving DecidableEq, Repr

/-- Parsed `activities` input. -/
structure ActivitiesParsed where
  projectKey : String
  offset : Option ℤ
  limit : Option ℤ
deriving DecidableEq, Repr

/-- `activitiesInputSchema.parse`. -/
def parseActivitiesInput (p : ActivitiesRaw) : Except Unit ActivitiesParsed :=
  match parseReqTrimmed p.projectKey with
  | .error e => .error e
  | .ok pk =>
    match parseOptNonneg p.offset with
    | .error e => .error e
    | .ok off =>
      match parseOptPos p.limit with
      | .error e => .error e
      | .ok lim => .ok ⟨pk, off, lim⟩

/-- Result shape of the `activities` tool. -/
structure GetActivitiesResult where
  activities : List ActivityInfo
  nextOffset : Option ℤ
deriving DecidableEq, Repr

/-- `getActivities` / `createActivitiesTool(...).execute` (validated
variant of `src/tools/activities.ts`), with the upstream response supplied
as an already-validated activity list. -/
def activitiesRun (p : ActivitiesRaw) (upstream : List BacklogActivity) :
    List Step × Except Unit GetActivitiesResult :=
  match parseActivitiesInput p with
  | .error e => ([.validationError], .error e)
  | .ok parsed =>
    let np := normalizePagination
      (some ⟨pagFieldOfOpt parsed.offset, pagFieldOfOpt parsed.limit⟩)
    let effOffset : ℤ := (np.bind (·.offset)).getD 0
    let effLimit : Option ℤ := np.bind (·.limit)
    let nextOffset : Option ℤ := nextOffsetCalc effLimit effOffset upstream.length
    ([.networkCall "GET" ("/projects/" ++ parsed.projectKey ++ "/activities")],
      .ok ⟨upstream.map toActivityInfo, nextOffset⟩)

/-- Raw `deleteIssue` argument object. -/
structure DeleteIssueRaw where
  issueIdOrKey : Option String
deriving DecidableEq, Repr

/-- Result of the `deleteIssue` tool. -/
structure DeleteIssueResult where
  status : String
  issueKey : String
deriving DecidableEq, Repr

/-- `createDeleteIssueTool(...).execute` (`src/tools/issues.ts`): validate
`issueIdOrKey` (trimmed, non-empty), issue the DELETE, ignore the response
body, and echo the validated key with status `deleted`. The upstream
outcome is supplied as `Except Unit String` (an arbitrary body on success). -/
def deleteIssueRun (p : DeleteIssueRaw) (upstream : Except Unit String) :
    List Step × Except Unit DeleteIssueResult :=
  match parseReqTrimmed p.issueIdOrKey with
  | .error e => ([.validationError], .error e)
  | .ok key =>
    let steps := [Step.networkCall "DELETE" ("/issues/" ++ encodeURIComponentM key)]
    match upstream with
    | .error e => (steps, .error e)
    | .ok _ => (steps, .ok ⟨"deleted", key⟩)

/-- Raw `deleteComment` argument object. -/
structure DeleteCommentRaw where
  issueId : Option ℚ
  commentId : Option ℚ
deriving DecidableEq, Repr

/-- Result of the `deleteComment` tool. -/
structure DeleteCommentResult where
  status : String
  issueId : ℤ
  commentId : ℤ
deriving DecidableEq, Repr

/-- `createDeleteCommentTool(...).execute` (`src/tools/comments.ts`). -/
def deleteCommentRun (p : DeleteCommentRaw) (upstream : Except Unit String) :
    List Step × Except Unit DeleteCommentResult :=
  match parseReqPos p.issueId with
  | .error e => ([.validationError], .error e)
  | .ok issueId =>
    match parseReqPos p.commentId with
    | .error e => ([.validationError], .error e)
    | .ok commentId =>
      let steps := [Step.networkCall "DELETE"
        ("/issues/" ++ encodeURIComponentM (toString issueId) ++
          "/comments/" ++ encodeURIComponentM (toString commentId))]
      match upstream with
      | .error e => (steps, .error e)
      | .ok _ => (steps, .ok ⟨"deleted", issueId, commentId⟩)

/-- Raw `deleteWiki` argument object. -/
structure DeleteWikiRaw where
  wikiId : Option ℚ
deriving DecidableEq, Repr

/-- Result of the `deleteWiki` tool. -/
structure DeleteWikiResult where
  status : String
  wikiId : ℤ
deriving DecidableEq, Repr

/-- `createDeleteWikiTool(...).execute` (`src/tools/wiki.ts`). -/
def deleteWikiRun (p : DeleteWikiRaw) (upstream : Except Unit String) :
    List Step × Except Unit DeleteWikiResult :=
  match parseReqPos p.wikiId with
  | .error e => ([.validationError], .error e)
  | .ok wikiId =>
    let steps := [Step.networkCall "DELETE"
      ("/wikis/" ++ encodeURIComponentM (toString wikiId))]
    match upstream with
    | .error e => (steps, .error e)
    | .ok _ => (steps, .ok ⟨"deleted", wikiId⟩)

/-- Raw argument object of the aggregate `issues` dispatcher tool
(`src/tools/issues.ts`, the registered variant): a project key string, an
optional `action` discriminator, an optional issue payload (modelled by
its presence) and the rest-spread pagination fields. -/
structure IssuesToolRaw where
  projectKey : String
  action : Option String
  issue : Option Unit
  offset : PagField
  limit : PagField
deriving DecidableEq, Repr

/-- `createIssuesTool(...).execute` (`src/tools/issues.ts`): no schema is
applied; `action === 'create'` without a payload throws a plain `Error`,
`create` with a payload posts directly, and every other action value lists
directly — the argument object reaches the executor unvalidated. The
upstream response is passed through without response validation. -/
def issuesToolRun (p : IssuesToolRaw) (upstream : Except Unit Unit) :
    List Step × Except Unit Unit :=
  if p.action = some "create" then
    match p.issue with
    | none => ([.genericThrow], .error ())
    | some _ =>
      ([.networkCall "POST" ("/projects/" ++ p.projectKey ++ "/issues")], upstream)
  else
    ([.networkCall "GET" ("/projects/" ++ p.projectKey ++ "/issues")], upstream)

/-- Raw argument object of the aggregate `wiki` dispatcher tool
(`createWikiTool`, `src/tools/wiki.ts`). -/
structure WikiToolRaw where
  projectKeyOrId : String
  offset : PagField
  limit : PagField
deriving DecidableEq, Repr

/-- `createWikiTool(...).execute`: no schema; lists wiki pages directly. -/
def wikiToolRun (p : WikiToolRaw) (upstream : Except Unit Unit) :
    List Step × Except Unit Unit :=
  ([.networkCall "GET" ("/projects/" ++ p.projectKeyOrId ++ "/wikis")], upstream)

/-! ## Theorems -/

/-- C4: `normalizePagination` returns absent for an absent input object;
otherwise each finite numeric field is normalized to
`floor(max(0, offset))` resp. `floor(max(1, limit))` (the source's
`max(0, Math.floor(·))` coincides with the spec's `floor(max(0, ·))`),
and every non-finite, non-numeric or absent field is omitted. -/
theorem claimC4_normalizePagination_spec :
    normalizePagination none = none ∧
    ∀ o : PaginationOptions,
      (∀ q : ℚ, o.offset = .num (.finite q) →
        (normalizePagination (some o)).bind (·.offset) = some ⌊max 0 q⌋) ∧
      (∀ q : ℚ, o.limit = .num (.finite q) →
        (normalizePagination (some o)).bind (·.limit) = some ⌊max 1 q⌋) ∧
      ((∀ q : ℚ, o.offset ≠ .num (.finite q)) →
        (normalizePagination (some o)).bind (·.offset) = none) ∧
      ((∀ q : ℚ, o.limit ≠ .num (.finite q)) →
        (normalizePagination (some o)).bind (·.limit) = none) := by
  refine ⟨rfl, fun o => ⟨?_, ?_, ?_, ?_⟩⟩
  · intro q h
    have := max_floor_eq_floor_max 0 q
    simp only [Int.cast_zero] at this
    simp [normalizePagination, h, this]
  · intro q h
    have := max_floor_eq_floor_max 1 q
    simp only [Int.cast_one] at this
    simp [normalizePagination, h, this]
  · intro h
    rcases ho : o.offset with _ | _ | x
    · simp [normalizePagination, ho]
    · simp [normalizePagination, ho]
    · rcases x with _ | _ | _ | q
      · simp [normalizePagination, ho]
      · simp [normalizePagination, ho]
      · simp [normalizePagination, ho]
      · exact absurd ho (h q)
  · intro h
    rcases ho : o.limit with _ | _ | x
    · simp [normalizePagination, ho]
    · simp [normalizePagination, ho]
    · rcases x with _ | _ | _ | q
      · simp [normalizePagination, ho]
      · simp [normalizePagination, ho]
      · simp [normalizePagination, ho]
      · exact absurd ho (h q)

/-- Witness for C4 at concrete inputs: offset `-1.5` clamps to `0`,
limit `2.5` floors to `2`, a NaN offset and an absent limit are omitted. -/
theorem claimC4_normalizePagination_spec_witness :
    (normalizePagination
        (some ⟨.num (.finite (-3/2)), .num (.finite (5/2))⟩)).bind (·.offset) =
      some 0 ∧
    (normalizePagination
        (some ⟨.num (.finite (-3/2)), .num (.finite (5/2))⟩)).bind (·.limit) =
      some 2 ∧
    (normalizePagination (some ⟨.num .nan, .absent⟩)).bind (·.offset) = none ∧
    (normalizePagination (some ⟨.num .nan, .absent⟩)).bind (·.limit) = none := by
  have h := claimC4_normalizePagination_spec
  have h1 := (h.2 ⟨.num (.finite (-3/2)), .num (.finite (5/2))⟩).1 (-3/2) rfl
  have h2 := (h.2 ⟨.num (.finite (-3/2)), .num (.finite (5/2))⟩).2.1 (5/2) rfl
  have h3 := (h.2 ⟨.num .nan, .absent⟩).2.2.1 (fun q hq => nomatch hq)
  have h4 := (h.2 ⟨.num .nan, .absent⟩).2.2.2 (fun q hq => nomatch hq)
  refine ⟨?_, ?_, h3, h4⟩
  · rw [h1, max_eq_left (by norm_num : (-3/2 : ℚ) ≤ 0), Int.floor_zero]
  · rw [h2, max_eq_right (by norm_num : (1 : ℚ) ≤ 5/2)]
    congr 1
    rw [Int.floor_eq_iff]
    constructor <;> norm_num

/-- C8: `buildPaginationParams` never emits a key whose normalized value is
absent, emits the normalized offset under `offset` and the normalized limit
under `count` (never under `limit`), and collapses an empty parameter
object to absence. -/
theorem claimC8_buildPaginationParams_spec :
    ∀ o : Option PaginationOptions,
      (buildPaginationParams o = none ↔
        (normalizePagination o).bind (·.offset) = none ∧
        (normalizePagination o).bind (·.limit) = none) ∧
      (∀ ps, buildPaginationParams o = some ps →
        ps ≠ [] ∧
        (∀ kv ∈ ps, kv.1 = "offset" ∨ kv.1 = "count") ∧
        (∀ v : ℤ, ("offset", v) ∈ ps ↔
          (normalizePagination o).bind (·.offset) = some v) ∧
        (∀ v : ℤ, ("count", v) ∈ ps ↔
          (normalizePagination o).bind (·.limit) = some v) ∧
        (∀ v : ℤ, ("limit", v) ∉ ps)) := by
  intro o
  rcases hn : normalizePagination o with _ | n
  · refine ⟨by simp [buildPaginationParams, hn], ?_⟩
    intro ps hps
    simp [buildPaginationParams, hn] at hps
  · obtain ⟨a, b⟩ := n
    rcases a with _ | av <;> rcases b with _ | bv
    · refine ⟨by simp [buildPaginationParams, hn], ?_⟩
      intro ps hps
      simp [buildPaginationParams, hn] at hps
    · refine ⟨by simp [buildPaginationParams, hn], ?_⟩
      intro ps hps
      simp only [buildPaginationParams, hn, List.nil_append, List.isEmpty_cons,
        if_false, Bool.false_eq_true, Option.some.injEq] at hps
      subst hps
      refine ⟨by simp, ?_, ?_, ?_, ?_⟩
      · intro kv hkv
        simp only [List.mem_singleton] at hkv
        subst hkv
        right; rfl
      · intro v; simp [hn, eq_comm]
      · intro v; simp [hn, eq_comm]
      · intro v; simp [hn]
    · refine ⟨by simp [buildPaginationParams, hn], ?_⟩
      intro ps hps
      simp only [buildPaginationParams, hn, List.append_nil, List.isEmpty_cons,
        if_false, Bool.false_eq_true, Option.some.injEq] at hps
      subst hps
      refine ⟨by simp, ?_, ?_, ?_, ?_⟩
      · intro kv hkv
        simp only [List.mem_singleton] at hkv
        subst hkv
        left; rfl
      · intro v; simp [hn, eq_comm]
      · intro v; simp [hn, eq_comm]
      · intro v; simp [hn]
    · refine ⟨by simp [buildPaginationParams, hn], ?_⟩
      intro ps hps
      simp only [buildPaginationParams, hn, List.cons_append, List.nil_append,
        List.isEmpty_cons, if_false, Bool.false_eq_true, Option.some.injEq] at hps
      subst hps
      refine ⟨by simp, ?_, ?_, ?_, ?_⟩
      · intro kv hkv
        simp only [List.mem_cons, List.mem_singleton, List.not_mem_nil,
          or_false] at hkv
        rcases hkv with hkv | hkv <;> subst hkv
        · left; rfl
        · right; rfl
      · intro v; simp [hn, eq_comm]
      · intro v; simp [hn, eq_comm]
      · intro v; simp [hn]

/-- Witness for C8: offset `1` and limit `2` yield exactly
`offset=1, count=2` on the wire (and no `limit` key); with a NaN offset and
a non-numeric limit the result is absent, not an empty object. -/
theorem claimC8_buildPaginationParams_spec_witness :
    buildPaginationParams (some ⟨.num (.finite 1), .num (.finite 2)⟩) =
      some [("offset", 1), ("count", 2)] ∧
    (∀ v : ℤ, ("limit", v) ∉ [(("offset" : String), (1 : ℤ)), ("count", 2)]) ∧
    buildPaginationParams (some ⟨.num .nan, .nonNumber⟩) = none := by
  have hx : buildPaginationParams (some ⟨.num (.finite 1), .num (.finite 2)⟩) =
      some [("offset", 1), ("count", 2)] := by
    simp [buildPaginationParams, normalizePagination]
  refine ⟨hx, ?_, ?_⟩
  · exact ((claimC8_buildPaginationParams_spec _).2 _ hx).2.2.2.2
  · exact (claimC8_buildPaginationParams_spec
      (some ⟨.num .nan, .nonNumber⟩)).1.mpr ⟨rfl, rfl⟩


/-- For a `BacklogError` with any attached status, the protocol code chosen
by `handleError` is `classOfStatus` of that status. -/
theorem handleError_backlog_code (m : String) (s : ℕ) (d tn fb : Option String) :
    (handleError (.backlogError m (some s) d) tn fb).code = classOfStatus (some s) := by
  simp only [handleError, normalizeError, classOfStatus]
  split_ifs <;> rfl

/-- A `BacklogError` with attached status `s` is thrown onward with
`data.status = s`. -/
theorem handleError_backlog_status (m : String) (s : ℕ) (d tn fb : Option String) :
    (handleError (.backlogError m (some s) d) tn fb).status = some s := by
  simp only [handleError, normalizeError]
  split_ifs <;> rfl

/-- C2: `handleError` is total over errors with an attached HTTP status
(the model returns the error that the `never`-typed source function throws,
so classification always happens), and the chosen class is a function of
the status alone: 401 → UNAUTHENTICATED, 403 → PERMISSION_DENIED,
404 → invalid-argument, 429 → UNAVAILABLE regardless of the message text,
any other 4xx → invalid-argument, any 5xx → INTERNAL. -/
theorem claimC2_handleError_status_classification :
    ∀ (m : String) (s : ℕ) (d tn fb : Option String),
      (s = 401 → (handleError (.backlogError m (some s) d) tn fb).code = UNAUTHENTICATED) ∧
      (s = 403 → (handleError (.backlogError m (some s) d) tn fb).code = PERMISSION_DENIED) ∧
      (s = 404 → (handleError (.backlogError m (some s) d) tn fb).code = INVALID_PARAMS) ∧
      (s = 429 → (handleError (.backlogError m (some s) d) tn fb).code = UNAVAILABLE) ∧
      (400 ≤ s → s < 500 → s ≠ 401 → s ≠ 403 → s ≠ 404 → s ≠ 429 →
        (handleError (.backlogError m (some s) d) tn fb).code = INVALID_PARAMS) ∧
      (500 ≤ s → (handleError (.backlogError m (some s) d) tn fb).code = INTERNAL_ERROR) ∧
      (∀ (m' : String) (d' tn' fb' : Option String),
        (handleError (.backlogError m' (some s) d') tn' fb').code =
          (handleError (.backlogError m (some s) d) tn fb).code) := by
  intro m s d tn fb
  have hc := handleError_backlog_code m s d tn fb
  refine ⟨?_, ?_, ?_, ?_, ?_, ?_, ?_⟩
  · rintro rfl; rw [hc]; rfl
  · rintro rfl; rw [hc]; rfl
  · rintro rfl; rw [hc]; rfl
  · rintro rfl; rw [hc]; rfl
  · intro h1 h2 h3 h4 h5 h6
    rw [hc]
    simp only [classOfStatus]
    split_ifs <;> first | rfl | omega
  · intro h
    rw [hc]
    simp only [classOfStatus]
    split_ifs <;> first | rfl | omega
  · intro m' d' tn' fb'
    rw [hc, handleError_backlog_code]

/-- Witness for C2 at concrete statuses: 401, 404, 429 (with an unrelated
message), a plain 418 and a 500 each classify as claimed. -/
theorem claimC2_handleError_status_classification_witness :
    (handleError (.backlogError "auth" (some 401) none) none none).code =
      UNAUTHENTICATED ∧
    (handleError (.backlogError "gone" (some 404) none) none none).code =
      INVALID_PARAMS ∧
    (handleError (.backlogError "anything at all" (some 429) none) none none).code =
      UNAVAILABLE ∧
    (handleError (.backlogError "teapot" (some 418) none) none none).code =
      INVALID_PARAMS ∧
    (handleError (.backlogError "boom" (some 500) none) none none).code =
      INTERNAL_ERROR := by
  refine ⟨?_, ?_, ?_, ?_, ?_⟩
  · exact (claimC2_handleError_status_classification "auth" 401 none none none).1 rfl
  · exact (claimC2_handleError_status_classification "gone" 404 none none
      none).2.2.1 rfl
  · exact (claimC2_handleError_status_classification "anything at all" 429 none
      none none).2.2.2.1 rfl
  · exact (claimC2_handleError_status_classification "teapot" 418 none none
      none).2.2.2.2.1 (by norm_num) (by norm_num) (by norm_num) (by norm_num)
      (by norm_num) (by norm_num)
  · exact (claimC2_handleError_status_classification "boom" 500 none none
      none).2.2.2.2.2.1 (by norm_num)


/-- For a `BacklogError` without an attached status, the status surfaced in
the structured data is exactly the one recovered from the message text. -/
theorem handleError_backlog_none_status (m : String) (d tn fb : Option String) :
    (handleError (.backlogError m none d) tn fb).status = recoverStatus m := by
  simp only [handleError, normalizeError]
  rcases h : recoverStatus m with _ | s
  · rfl
  · dsimp only
    split_ifs <;> rfl

/-- For a `BacklogError` without an attached status, the protocol code is
`classOfStatus` of the recovered status. -/
theorem handleError_backlog_none_code (m : String) (d tn fb : Option String) :
    (handleError (.backlogError m none d) tn fb).code =
      classOfStatus (recoverStatus m) := by
  simp only [handleError, normalizeError, classOfStatus]
  rcases h : recoverStatus m with _ | s
  · rfl
  · dsimp only
    split_ifs <;> rfl

/-- A plain `Error` is classified exactly like a status-less `BacklogError`
with the same message (`normalizeError` wraps it keeping the message). -/
theorem handleError_generic_eq (m : String) (tn fb : Option String) :
    handleError (.genericError m) tn fb =
      handleError (.backlogError m none none) tn fb := rfl

/-- C5: when no status is attached, `handleError` recovers the status by
pattern-matching a three-digit number out of the message text and uses it
both for classification and for the structured data; in particular the
executor's failure message for an upstream 503 (`BacklogClient.request`
embeds the numeric status in the thrown `Error`) is classified as an
INTERNAL-class error whose structured data carries `status: 503`. -/
theorem claimC5_status_recovery :
    (∀ (m : String) (d tn fb : Option String),
      (handleError (.backlogError m none d) tn fb).status = recoverStatus m ∧
      (handleError (.backlogError m none d) tn fb).code =
        classOfStatus (recoverStatus m)) ∧
    responseStatusOutcome 503 = .thrown (.genericError (requestFailedMessage 503)) ∧
    recoverStatus (requestFailedMessage 503) = some 503 ∧
    (handleError (.genericError (requestFailedMessage 503))
        (some "listIssues") none).code = INTERNAL_ERROR ∧
    (handleError (.genericError (requestFailedMessage 503))
        (some "listIssues") none).status = some 503 := by
  have hrec : recoverStatus (requestFailedMessage 503) = some 503 := by decide
  refine ⟨?_, by decide, hrec, ?_, ?_⟩
  · intro m d tn fb
    exact ⟨handleError_backlog_none_status m d tn fb,
      handleError_backlog_none_code m d tn fb⟩
  · rw [handleError_generic_eq, handleError_backlog_none_code, hrec]
    rfl
  · rw [handleError_generic_eq, handleError_backlog_none_status, hrec]

/-- The tag inspection the classifier performs on the sentinel
(`error === RATE_LIMIT_TOKEN`): true exactly on the rate-limit sentinel. -/
def isRateLimitSentinel : ClassifierInput → Bool
  | .rateLimitToken => true
  | _ => false

/-- C7: an upstream HTTP 429 makes the executor throw the distinguished
rate-limit sentinel — a value the classifier recognises by tag inspection,
never by message string matching (the tag test is false on every generic
and typed error) — and `handleError` maps exactly that sentinel to an
UNAVAILABLE-class error with fixed `status: 429` in its structured data. -/
theorem claimC7_rateLimit_sentinel :
    responseStatusOutcome 429 = .thrown .rateLimitToken ∧
    isRateLimitSentinel .rateLimitToken = true ∧
    (∀ (m : String) (st : Option ℕ) (d : Option String),
      isRateLimitSentinel (.backlogError m st d) = false ∧
      isRateLimitSentinel (.genericError m) = false) ∧
    (∀ tn fb : Option String,
      handleError .rateLimitToken tn fb =
        ⟨UNAVAILABLE, buildErrorMessage "Backlog API rate limit exceeded." tn,
          some 429, none, none⟩) := by
  exact ⟨by decide, rfl, fun m st d => ⟨rfl, rfl⟩, fun tn fb => rfl⟩


/-- C6: for each update schema (issue, comment, wiki), a payload whose
fields are all absent or explicitly `undefined` fails the refine guard and
is rejected, while a payload with exactly one field set to a valid value
parses successfully. -/
theorem claimC6_update_payload_validation :
    (parseIssueUpdate ⟨.absent, .absent, []⟩ = .error ()) ∧
    (parseIssueUpdate ⟨.undef, .undef, []⟩ = .error ()) ∧
    (∀ s, jsTrim s ≠ "" →
      parseIssueUpdate ⟨.val s, .absent, []⟩ = .ok ⟨some (jsTrim s), none⟩) ∧
    (∀ d, parseIssueUpdate ⟨.absent, .val d, []⟩ = .ok ⟨none, some d⟩) ∧
    (parseCommentUpdate ⟨.absent, .absent, []⟩ = .error ()) ∧
    (parseCommentUpdate ⟨.undef, .undef, []⟩ = .error ()) ∧
    (∀ s, jsTrim s ≠ "" →
      parseCommentUpdate ⟨.val s, .absent, []⟩ = .ok ⟨some (jsTrim s), none⟩) ∧
    (∀ ids : List ℤ, ids.all (fun i => 0 < i) = true →
      parseCommentUpdate ⟨.absent, .val ids, []⟩ = .ok ⟨none, some ids⟩) ∧
    (parseWikiUpdate ⟨.absent, .absent, .absent, []⟩ = .error ()) ∧
    (parseWikiUpdate ⟨.undef, .undef, .undef, []⟩ = .error ()) ∧
    (∀ s, jsTrim s ≠ "" →
      parseWikiUpdate ⟨.val s, .absent, .absent, []⟩ =
        .ok ⟨some (jsTrim s), none, none⟩) ∧
    (∀ c, parseWikiUpdate ⟨.absent, .val c, .absent, []⟩ =
      .ok ⟨none, some c, none⟩) ∧
    (∀ b, parseWikiUpdate ⟨.absent, .absent, .val b, []⟩ =
      .ok ⟨none, none, some b⟩) := by
  refine ⟨rfl, rfl, ?_, ?_, rfl, rfl, ?_, ?_, rfl, rfl, ?_, ?_, ?_⟩
  · intro s hs
    simp [parseIssueUpdate, parseIssueUpdate.refineStep, someDefined,
      Field.definedVals, hs]
  · intro d
    simp [parseIssueUpdate, parseIssueUpdate.refineStep, someDefined,
      Field.definedVals]
  · intro s hs
    simp [parseCommentUpdate, parseCommentUpdate.idsStep,
      parseCommentUpdate.refineStep, someDefined, Field.definedVals, hs]
  · intro ids hids
    simp [parseCommentUpdate, parseCommentUpdate.idsStep,
      parseCommentUpdate.refineStep, someDefined, Field.definedVals, hids]
  · intro s hs
    simp [parseWikiUpdate, parseWikiUpdate.refineStep, someDefined,
      Field.definedVals, hs]
  · intro c
    simp [parseWikiUpdate, parseWikiUpdate.refineStep, someDefined,
      Field.definedVals]
  · intro b
    simp [parseWikiUpdate, parseWikiUpdate.refineStep, someDefined,
      Field.definedVals]

/-- Witness for C6: one valid single-field payload per schema. -/
theorem claimC6_update_payload_validation_witness :
    parseIssueUpdate ⟨.val "Fix the build", .absent, []⟩ =
      .ok ⟨some "Fix the build", none⟩ ∧
    parseCommentUpdate ⟨.absent, .val [3], []⟩ = .ok ⟨none, some [3]⟩ ∧
    parseWikiUpdate ⟨.absent, .absent, .val true, []⟩ =
      .ok ⟨none, none, some true⟩ := by
  have h := claimC6_update_payload_validation
  refine ⟨?_, ?_, ?_⟩
  · have := h.2.2.1 "Fix the build" (by decide)
    rw [this]
    rfl
  · exact h.2.2.2.2.2.2.2.1 [3] (by decide)
  · exact h.2.2.2.2.2.2.2.2.2.2.2.2 true


/-- C9: the response mappers are total functions on validated raw shapes
(`toCommentInfo` and `toWikiDetails` are Lean functions, so they can
neither throw nor leave a field `undefined`): a raw entity with every
optional field absent maps to a public shape with every optional scalar
`null` and the wiki tag list empty, a present nested relation collapses to
its `id`/`name`, and a `null` or absent relation becomes `null`. -/
theorem claimC9_mappers_absent_defaults :
    (∀ i : ℤ, toCommentInfo ⟨i, .absent, .absent, .absent, .absent⟩ =
      ⟨i, none, none, none, none⟩) ∧
    (∀ (wid : ℤ) (nm : String),
      toWikiDetails ⟨wid, none, nm, .absent, .absent, .absent, .absent,
        .absent, none⟩ = ⟨wid, none, nm, none, none, none, none, none, []⟩) ∧
    (∀ (c : BacklogComment) (u : BacklogUser), c.createdUser = .val u →
      (toCommentInfo c).author = some ⟨u.id, u.name⟩) ∧
    (∀ c : BacklogComment, c.createdUser = .null →
      (toCommentInfo c).author = none) ∧
    (∀ c : BacklogComment, c.createdUser = .absent →
      (toCommentInfo c).author = none) ∧
    (∀ (w : BacklogWiki) (u : BacklogUser), w.createdUser = .val u →
      (toWikiDetails w).createdBy = some ⟨u.id, u.name⟩) ∧
    (∀ w : BacklogWiki, w.createdUser = .null ∨ w.createdUser = .absent →
      (toWikiDetails w).createdBy = none) := by
  refine ⟨fun i => rfl, fun wid nm => rfl, ?_, ?_, ?_, ?_, ?_⟩
  · intro c u h
    simp [toCommentInfo, h]
  · intro c h
    simp [toCommentInfo, h]
  · intro c h
    simp [toCommentInfo, h]
  · intro w u h
    simp [toWikiDetails, toUserInfo, h]
  · intro w h
    rcases h with h | h <;> simp [toWikiDetails, toUserInfo, h]

/-- Witness for C9: a comment carrying a present author and a wiki carrying
a `null` creator relation. -/
theorem claimC9_mappers_absent_defaults_witness :
    (toCommentInfo ⟨7, .val "hello", .val ⟨some 5, none, some "alice"⟩,
        .absent, .absent⟩).author = some ⟨some 5, some "alice"⟩ ∧
    (toWikiDetails ⟨1, some 2, "Home", .absent, .null, .absent, .absent,
        .absent, none⟩).createdBy = none := by
  refine ⟨?_, ?_⟩
  · exact claimC9_mappers_absent_defaults.2.2.1
      ⟨7, .val "hello", .val ⟨some 5, none, some "alice"⟩, .absent, .absent⟩
      ⟨some 5, none, some "alice"⟩ rfl
  · exact claimC9_mappers_absent_defaults.2.2.2.2.2.2
      ⟨1, some 2, "Home", .absent, .null, .absent, .absent, .absent, none⟩
      (Or.inl rfl)


/-- A surviving value of `parseOptNonneg` is non-negative. -/
theorem parseOptNonneg_bound (o : Option ℚ) (r : Option ℤ)
    (h : parseOptNonneg o = .ok r) : ∀ v, r = some v → 0 ≤ v := by
  intro v hv
  subst hv
  rcases o with _ | q
  · simp [parseOptNonneg] at h
  · simp only [parseOptNonneg] at h
    split_ifs at h with hc
    simp only [Except.ok.injEq, Option.some.injEq] at h
    subst h
    exact Rat.num_nonneg.mpr hc.2

/-- A surviving value of `parseOptPos` is at least `1`. -/
theorem parseOptPos_bound (o : Option ℚ) (r : Option ℤ)
    (h : parseOptPos o = .ok r) : ∀ v, r = some v → 1 ≤ v := by
  intro v hv
  subst hv
  rcases o with _ | q
  · simp [parseOptPos] at h
  · simp only [parseOptPos] at h
    split_ifs at h with hc
    simp only [Except.ok.injEq, Option.some.injEq] at h
    subst h
    exact Rat.num_pos.mpr hc.2

/-- Feeding already-validated integer pagination fields (offset ≥ 0,
limit ≥ 1) back through `normalizePagination` is the identity, so the
tools' effective offset and limit coincide with the validated inputs. -/
theorem normalizePagination_validated (off lim : Option ℤ)
    (hoff : ∀ v, off = some v → 0 ≤ v) (hlim : ∀ v, lim = some v → 1 ≤ v) :
    normalizePagination (some ⟨pagFieldOfOpt off, pagFieldOfOpt lim⟩) =
      some ⟨off, lim⟩ := by
  rcases off with _ | v <;> rcases lim with _ | w
  · rfl
  · show some (NormalizedPagination.mk none (some (max 1 ⌊((w : ℤ) : ℚ)⌋))) =
      some (NormalizedPagination.mk none (some w))
    rw [Int.floor_intCast, max_eq_right (hlim w rfl)]
  · show some (NormalizedPagination.mk (some (max 0 ⌊((v : ℤ) : ℚ)⌋)) none) =
      some (NormalizedPagination.mk (some v) none)
    rw [Int.floor_intCast, max_eq_right (hoff v rfl)]
  · show some (NormalizedPagination.mk (some (max 0 ⌊((v : ℤ) : ℚ)⌋))
        (some (max 1 ⌊((w : ℤ) : ℚ)⌋))) =
      some (NormalizedPagination.mk (some v) (some w))
    rw [Int.floor_intCast, Int.floor_intCast, max_eq_right (hoff v rfl),
      max_eq_right (hlim w rfl)]

/-- Characterization of the shared next-offset computation: with an
effective limit `l` the result is `off + l` iff exactly `l` items came
back (and `null` otherwise); with no effective limit it is always `null`. -/
theorem nextOffsetCalc_spec (lim : Option ℤ) (off : ℤ) (n : ℕ) :
    (∀ l, lim = some l →
      ((nextOffsetCalc lim off n = some (off + l)) ↔ (n : ℤ) = l) ∧
      ((n : ℤ) ≠ l → nextOffsetCalc lim off n = none)) ∧
    (lim = none → nextOffsetCalc lim off n = none) := by
  constructor
  · rintro l rfl
    constructor
    · constructor
      · intro h
        by_contra hne
        simp [nextOffsetCalc, hne] at h
      · intro h
        simp [nextOffsetCalc, h]
    · intro h
      simp [nextOffsetCalc, h]
  · rintro rfl
    rfl

/-- C1: for every list tool (`listComments`, `searchWiki`, `activities`),
on validated input the returned `nextOffset` equals
`effectiveOffset + effectiveLimit` iff the upstream item count equals the
effective limit, and is `null` otherwise — in particular `null` whenever no
limit was given. The effective offset is the normalized offset (`0` if
unspecified) and, validation having produced clamped integers already,
coincides with the validated input offset. -/
theorem claimC1_list_tools_next_offset :
    (∀ (p : ListCommentsRaw) (items : List BacklogComment)
        (parsed : ListCommentsParsed), parseListCommentsInput p = .ok parsed →
      ∃ res : ListCommentsResult, (listCommentsRun p items).2 = .ok res ∧
        res.comments = items.map toCommentInfo ∧
        (∀ l, parsed.limit = some l →
          ((res.nextOffset = some (parsed.offset.getD 0 + l)) ↔
            (items.length : ℤ) = l) ∧
          ((items.length : ℤ) ≠ l → res.nextOffset = none)) ∧
        (parsed.limit = none → res.nextOffset = none)) ∧
    (∀ (p : SearchWikiRaw) (items : List BacklogWiki)
        (parsed : SearchWikiParsed), parseSearchWikiInput p = .ok parsed →
      ∃ res : SearchWikiResult, (searchWikiRun p items).2 = .ok res ∧
        res.wikis = items.map toWikiSummary ∧
        (∀ l, parsed.limit = some l →
          ((res.nextOffset = some (parsed.offset.getD 0 + l)) ↔
            (items.length : ℤ) = l) ∧
          ((items.length : ℤ) ≠ l → res.nextOffset = none)) ∧
        (parsed.limit = none → res.nextOffset = none)) ∧
    (∀ (p : ActivitiesRaw) (items : List BacklogActivity)
        (parsed : ActivitiesParsed), parseActivitiesInput p = .ok parsed →
      ∃ res : GetActivitiesResult, (activitiesRun p items).2 = .ok res ∧
        res.activities = items.map toActivityInfo ∧
        (∀ l, parsed.limit = some l →
          ((res.nextOffset = some (parsed.offset.getD 0 + l)) ↔
            (items.length : ℤ) = l) ∧
          ((items.length : ℤ) ≠ l → res.nextOffset = none)) ∧
        (parsed.limit = none → res.nextOffset = none)) := by
  refine ⟨?_, ?_, ?_⟩
  · intro p items parsed hp
    rcases h1 : parseReqPos p.issueId with e | issueId
    · rw [parseListCommentsInput, h1] at hp; cases hp
    rcases h2 : parseOptNonneg p.offset with e | off
    · rw [parseListCommentsInput, h1, h2] at hp; cases hp
    rcases h3 : parseOptPos p.limit with e | lim
    · rw [parseListCommentsInput, h1, h2, h3] at hp; cases hp
    have hparse : parseListCommentsInput p = .ok ⟨issueId, off, lim⟩ := by
      rw [parseListCommentsInput, h1, h2, h3]
    rw [hparse] at hp
    cases hp
    have hnorm := normalizePagination_validated off lim
      (parseOptNonneg_bound _ _ h2) (parseOptPos_bound _ _ h3)
    refine ⟨⟨items.map toCommentInfo,
      nextOffsetCalc lim (off.getD 0) items.length⟩, ?_, rfl, ?_, ?_⟩
    · simp only [listCommentsRun, hparse, hnorm]
      rfl
    · exact fun l hl => (nextOffsetCalc_spec lim (off.getD 0) items.length).1 l hl
    · exact fun hl => (nextOffsetCalc_spec lim (off.getD 0) items.length).2 hl
  · intro p items parsed hp
    rcases h1 : parseProjectKeyOrId p.projectKeyOrId with e | pk
    · rw [parseSearchWikiInput, h1] at hp; cases hp
    rcases h0 : parseOptKeyword p.keyword with e | kw
    · rw [parseSearchWikiInput, h1, h0] at hp; cases hp
    rcases h2 : parseOptNonneg p.offset with e | off
    · rw [parseSearchWikiInput, h1, h0, h2] at hp; cases hp
    rcases h3 : parseOptPos p.limit with e | lim
    · rw [parseSearchWikiInput, h1, h0, h2, h3] at hp; cases hp
    have hparse : parseSearchWikiInput p = .ok ⟨pk, kw, off, lim⟩ := by
      rw [parseSearchWikiInput, h1, h0, h2, h3]
    rw [hparse] at hp
    cases hp
    have hnorm := normalizePagination_validated off lim
      (parseOptNonneg_bound _ _ h2) (parseOptPos_bound _ _ h3)
    refine ⟨⟨items.map toWikiSummary,
      nextOffsetCalc lim (off.getD 0) items.length⟩, ?_, rfl, ?_, ?_⟩
    · simp only [searchWikiRun, hparse, hnorm]
      rfl
    · exact fun l hl => (nextOffsetCalc_spec lim (off.getD 0) items.length).1 l hl
    · exact fun hl => (nextOffsetCalc_spec lim (off.getD 0) items.length).2 hl
  · intro p items parsed hp
    rcases h1 : parseReqTrimmed p.projectKey with e | pk
    · rw [parseActivitiesInput, h1] at hp; cases hp
    rcases h2 : parseOptNonneg p.offset with e | off
    · rw [parseActivitiesInput, h1, h2] at hp; cases hp
    rcases h3 : parseOptPos p.limit with e | lim
    · rw [parseActivitiesInput, h1, h2, h3] at hp; cases hp
    have hparse : parseActivitiesInput p = .ok ⟨pk, off, lim⟩ := by
      rw [parseActivitiesInput, h1, h2, h3]
    rw [hparse] at hp
    cases hp
    have hnorm := normalizePagination_validated off lim
      (parseOptNonneg_bound _ _ h2) (parseOptPos_bound _ _ h3)
    refine ⟨⟨items.map toActivityInfo,
      nextOffsetCalc lim (off.getD 0) items.length⟩, ?_, rfl, ?_, ?_⟩
    · simp only [activitiesRun, hparse, hnorm]
      rfl
    · exact fun l hl => (nextOffsetCalc_spec lim (off.getD 0) items.length).1 l hl
    · exact fun hl => (nextOffsetCalc_spec lim (off.getD 0) items.length).2 hl


/-- Witness for C1: listing comments with offset 1 and limit 2 over two
upstream comments yields `nextOffset = 3`; a wiki search with limit 5 over
one upstream page yields `nextOffset = null`; an activities listing with no
limit yields `nextOffset = null`. -/
theorem claimC1_list_tools_next_offset_witness :
    (listCommentsRun ⟨some 42, some 1, some 2⟩
        [⟨1, .absent, .absent, .absent, .absent⟩,
          ⟨2, .absent, .absent, .absent, .absent⟩]).2 =
      .ok ⟨[⟨1, none, none, none, none⟩, ⟨2, none, none, none, none⟩],
        some 3⟩ ∧
    (searchWikiRun ⟨some (.inl "PROJ"), none, none, some 5⟩
        [⟨1, none, "Home", .absent, .absent, .absent, .absent, .absent,
          none⟩]).2 =
      .ok ⟨[⟨1, none, "Home", none, []⟩], none⟩ ∧
    (activitiesRun ⟨some "PROJ", some 1, none⟩ []).2 = .ok ⟨[], none⟩ := by
  refine ⟨?_, ?_, ?_⟩
  · obtain ⟨res, hres, hcom, hiff, -⟩ := claimC1_list_tools_next_offset.1
      ⟨some 42, some 1, some 2⟩
      [⟨1, .absent, .absent, .absent, .absent⟩,
        ⟨2, .absent, .absent, .absent, .absent⟩]
      ⟨42, some 1, some 2⟩ (by rfl)
    have hnext := ((hiff 2 rfl).1).mpr (by decide)
    rcases res with ⟨rc, rn⟩
    rw [hres]
    simp only at hcom hnext
    rw [hcom, hnext]
    rfl
  · obtain ⟨res, hres, hcom, hiff, -⟩ := claimC1_list_tools_next_offset.2.1
      ⟨some (.inl "PROJ"), none, none, some 5⟩
      [⟨1, none, "Home", .absent, .absent, .absent, .absent, .absent, none⟩]
      ⟨.inl "PROJ", none, none, some 5⟩ (by rfl)
    have hnext := (hiff 5 rfl).2 (by decide)
    rcases res with ⟨rc, rn⟩
    rw [hres]
    simp only at hcom hnext
    rw [hcom, hnext]
    rfl
  · obtain ⟨res, hres, hcom, -, hnone⟩ := claimC1_list_tools_next_offset.2.2
      ⟨some "PROJ", some 1, none⟩ [] ⟨"PROJ", some 1, none⟩ (by rfl)
    have hnext := hnone rfl
    rcases res with ⟨rc, rn⟩
    rw [hres]
    simp only at hcom hnext
    rw [hcom, hnext]
    rfl


/-- C3 counterexample: the registered aggregate `issues` tool performs no
input validation. Invoked with a malformed argument object — an empty
`projectKey`, which the input contract requires to be non-empty after
trimming — its execution consists of exactly the executor call, with no
validation failure preceding it, contradicting the claim that validation
strictly precedes the network call in every registered tool. -/
theorem claimC3_issuesTool_no_validation_counterexample :
    (issuesToolRun ⟨"", none, none, .absent, .absent⟩ (.ok ())).1 =
      [Step.networkCall "GET" "/projects//issues"] ∧
    Step.validationError ∉
      (issuesToolRun ⟨"", none, none, .absent, .absent⟩ (.ok ())).1 := by
  decide

/-- C3 (amended): every schema-bearing tool validates its input before any
executor call — a failing parse makes the whole run a single validation
failure with no network step — but the registered aggregate dispatcher
tools (`issues`, `wiki`) perform no input validation at all: they forward
their argument object to the executor directly, so a malformed argument
reaches the network call. -/
theorem claimC3_validation_precedes_executor :
    (∀ (p : ListCommentsRaw) (u : List BacklogComment),
      (∃ e, parseListCommentsInput p = .error e) →
      listCommentsRun p u = ([.validationError], .error ())) ∧
    (∀ (p : SearchWikiRaw) (u : List BacklogWiki),
      (∃ e, parseSearchWikiInput p = .error e) →
      searchWikiRun p u = ([.validationError], .error ())) ∧
    (∀ (p : ActivitiesRaw) (u : List BacklogActivity),
      (∃ e, parseActivitiesInput p = .error e) →
      activitiesRun p u = ([.validationError], .error ())) ∧
    (∀ (p : DeleteIssueRaw) (u : Except Unit String),
      (∃ e, parseReqTrimmed p.issueIdOrKey = .error e) →
      deleteIssueRun p u = ([.validationError], .error ())) ∧
    (∀ (p : DeleteCommentRaw) (u : Except Unit String),
      (∃ e, parseReqPos p.issueId = .error e) →
      deleteCommentRun p u = ([.validationError], .error ())) ∧
    (∀ (p : IssuesToolRaw) (u : Except Unit Unit),
      Step.validationError ∉ (issuesToolRun p u).1) ∧
    (∀ (p : WikiToolRaw) (u : Except Unit Unit),
      Step.validationError ∉ (wikiToolRun p u).1) := by
  refine ⟨?_, ?_, ?_, ?_, ?_, ?_, ?_⟩
  · rintro p u ⟨e, he⟩
    simp [listCommentsRun, he]
  · rintro p u ⟨e, he⟩
    simp [searchWikiRun, he]
  · rintro p u ⟨e, he⟩
    simp [activitiesRun, he]
  · rintro p u ⟨e, he⟩
    simp [deleteIssueRun, he]
  · rintro p u ⟨e, he⟩
    simp [deleteCommentRun, he]
  · intro p u
    by_cases h : p.action = some "create"
    · rcases hi : p.issue with _ | x <;> simp [issuesToolRun, h, hi]
    · simp [issuesToolRun, h]
  · intro p u
    simp [wikiToolRun]

/-- Witness for the amended C3: a negative `issueId` fails `listComments`
validation before any network step; a whitespace-only `issueIdOrKey` fails
`deleteIssue` validation; the `issues` dispatcher never validates. -/
theorem claimC3_validation_precedes_executor_witness :
    listCommentsRun ⟨some (-1), none, none⟩ [] =
      ([.validationError], .error ()) ∧
    deleteIssueRun ⟨some "   "⟩ (.ok "") = ([.validationError], .error ()) ∧
    Step.validationError ∉
      (issuesToolRun ⟨"PROJ", some "create", none, .absent, .absent⟩
        (.ok ())).1 := by
  refine ⟨?_, ?_, ?_⟩
  · exact claimC3_validation_precedes_executor.1 ⟨some (-1), none, none⟩ []
      ⟨(), by rfl⟩
  · exact claimC3_validation_precedes_executor.2.2.2.1 ⟨some "   "⟩ (.ok "")
      ⟨(), by rfl⟩
  · exact claimC3_validation_precedes_executor.2.2.2.2.2.1
      ⟨"PROJ", some "create", none, .absent, .absent⟩ (.ok ())

/-- C10: on upstream success each delete tool's result is built solely from
the validated input identifiers — status `deleted` plus the echoed
(trimmed) issue key, comment ids, or wiki id — and is identical for any two
upstream response bodies. -/
theorem claimC10_delete_results_from_input :
    (∀ (p : DeleteIssueRaw) (key : String) (b1 b2 : String),
      parseReqTrimmed p.issueIdOrKey = .ok key →
      (deleteIssueRun p (.ok b1)).2 = .ok ⟨"deleted", key⟩ ∧
      deleteIssueRun p (.ok b1) = deleteIssueRun p (.ok b2)) ∧
    (∀ (p : DeleteCommentRaw) (i c : ℤ) (b1 b2 : String),
      parseReqPos p.issueId = .ok i → parseReqPos p.commentId = .ok c →
      (deleteCommentRun p (.ok b1)).2 = .ok ⟨"deleted", i, c⟩ ∧
      deleteCommentRun p (.ok b1) = deleteCommentRun p (.ok b2)) ∧
    (∀ (p : DeleteWikiRaw) (w : ℤ) (b1 b2 : String),
      parseReqPos p.wikiId = .ok w →
      (deleteWikiRun p (.ok b1)).2 = .ok ⟨"deleted", w⟩ ∧
      deleteWikiRun p (.ok b1) = deleteWikiRun p (.ok b2)) := by
  refine ⟨?_, ?_, ?_⟩
  · intro p key b1 b2 h
    constructor <;> simp [deleteIssueRun, h]
  · intro p i c b1 b2 h1 h2
    constructor <;> simp [deleteCommentRun, h1, h2]
  · intro p w b1 b2 h
    constructor <;> simp [deleteWikiRun, h]

/-- Witness for C10: deleting issue ` BLG-1 ` echoes the trimmed key for
any response body; comment and wiki deletion echo their numeric ids. -/
theorem claimC10_delete_results_from_input_witness :
    (deleteIssueRun ⟨some " BLG-1 "⟩ (.ok "ignored")).2 =
      .ok ⟨"deleted", "BLG-1"⟩ ∧
    deleteIssueRun ⟨some " BLG-1 "⟩ (.ok "a") =
      deleteIssueRun ⟨some " BLG-1 "⟩ (.ok "b") ∧
    (deleteCommentRun ⟨some 7, some 9⟩ (.ok "x")).2 = .ok ⟨"deleted", 7, 9⟩ ∧
    (deleteWikiRun ⟨some 5⟩ (.ok "y")).2 = .ok ⟨"deleted", 5⟩ := by
  refine ⟨?_, ?_, ?_, ?_⟩
  · exact (claimC10_delete_results_from_input.1 ⟨some " BLG-1 "⟩ "BLG-1"
      "ignored" "ignored" (by rfl)).1
  · exact (claimC10_delete_results_from_input.1 ⟨some " BLG-1 "⟩ "BLG-1"
      "a" "b" (by rfl)).2
  · exact (claimC10_delete_results_from_input.2.1 ⟨some 7, some 9⟩ 7 9
      "x" "x" (by rfl) (by rfl)).1
  · exact (claimC10_delete_results_from_input.2.2 ⟨some 5⟩ 5 "y" "y"
      (by rfl)).1

end BacklogMcp
